import Mathlib

/-!
# Verification of the blockchain blacklist sync service

A shallow embedding of the event-synchronization core of the
blacklist harvester: the SQLite-backed denylist store
(`Database.upsertBlacklistEntry`, `Database.batchUpsertBlacklistEntries`),
the Ethereum log normalizer and windowed backfill loop
(`EthereumSync.processLog`, `EthereumSync.syncToken`), and the TRON
indexer pagination and sync path (`TronSync.processEvent`,
`TronSync.fetchEventsForRange`, `TronSync.syncToken`).

External effects (SQL, HTTP, RPC) are modelled by explicit state passing:
the blacklist table is a finite map from its primary key to rows, the RPC
provider is an oracle function, and JavaScript `Date.now()` ingestion
times are threaded as parameters.
-/

/-- The primary key of the `blacklist` table: `(address, token, network)`,
with `address` stored lowercased (`PRIMARY KEY (address, token, network)`
in `DB_SCHEMA`). -/
abbrev BlacklistKey := String × String × String

/-- One row of the `blacklist` table (the key columns are the map index). -/
structure BlacklistRecord where
  is_blacklisted : Bool
  block_number : Nat
  transaction_hash : String
  timestamp : Nat
  first_seen : Nat
  last_updated : Nat
  deriving Repr, DecidableEq

/-- The `blacklist` table, as a map from primary key to row. -/
abbrev BlacklistDB := BlacklistKey → Option BlacklistRecord

/-- The empty `blacklist` table. -/
def emptyDB : BlacklistDB := fun _ => none

/-- The canonical in-flight event produced by the two normalizers and
consumed by the store (the `entry` objects built in
`EthereumSync.processLog` and `TronSync.processEvent`). -/
structure BlacklistEntry where
  address : String
  token : String
  network : String
  is_blacklisted : Bool
  block_number : Nat
  transaction_hash : String
  timestamp : Nat
  deriving Repr, DecidableEq

/-- JavaScript's `String.prototype.toLowerCase`, modelled per character
(the addresses it is applied to are ASCII hex strings). -/
def jsToLowerCase (s : String) : String := String.mk (s.data.map Char.toLower)

/-- The key under which an entry is stored: the upsert lowercases the
address (`entry.address.toLowerCase()`), the other key columns are used
as given. -/
def entryKey (e : BlacklistEntry) : BlacklistKey :=
  (jsToLowerCase e.address, e.token, e.network)

/-- Embedding of `Database.upsertBlacklistEntry`: `INSERT ... ON CONFLICT(address,
token, network) DO UPDATE SET is_blacklisted, block_number,
transaction_hash, timestamp, last_updated = excluded...`. `first_seen` is
listed in the INSERT column list but not in the UPDATE list, so it is set
to `now` on first insert and preserved on conflict. The update carries no
WHERE guard: every field listed is overwritten unconditionally. -/
def Database.upsertBlacklistEntry (db : BlacklistDB) (e : BlacklistEntry) (now : Nat) :
    BlacklistDB := fun k =>
  if k = entryKey e then
    some { is_blacklisted := e.is_blacklisted
           block_number := e.block_number
           transaction_hash := e.transaction_hash
           timestamp := e.timestamp
           first_seen := match db (entryKey e) with
             | some old => old.first_seen
             | none => now
           last_updated := now }
  else db k

/-- Embedding of `Database.batchUpsertBlacklistEntries`: runs the same prepared
INSERT-ON-CONFLICT statement once per entry, in list order, with a single
`Date.now()` captured for the whole batch. -/
def Database.batchUpsertBlacklistEntries (db : BlacklistDB) (es : List BlacklistEntry)
    (now : Nat) : BlacklistDB :=
  es.foldl (fun d e => Database.upsertBlacklistEntry d e now) db

/-- The row written for entry `e` when the pre-existing `first_seen`
value is `fs` and the ingestion time is `now`. -/
def rowOf (e : BlacklistEntry) (fs now : Nat) : BlacklistRecord :=
  { is_blacklisted := e.is_blacklisted
    block_number := e.block_number
    transaction_hash := e.transaction_hash
    timestamp := e.timestamp
    first_seen := fs
    last_updated := now }

/-- The `first_seen` value an upsert will record: the stored one when the
key exists, the current ingestion time otherwise. -/
def firstSeenOf (v : Option BlacklistRecord) (now : Nat) : Nat :=
  match v with
  | some r => r.first_seen
  | none => now

theorem upsertBlacklistEntry_apply (db : BlacklistDB) (e : BlacklistEntry) (now : Nat)
    (k : BlacklistKey) :
    Database.upsertBlacklistEntry db e now k =
      if k = entryKey e then some (rowOf e (firstSeenOf (db (entryKey e)) now) now)
      else db k := by
  unfold Database.upsertBlacklistEntry rowOf firstSeenOf
  rfl

/-- The entries of a batch that target key `k`. -/
def entriesForKey (es : List BlacklistEntry) (k : BlacklistKey) : List BlacklistEntry :=
  es.filter fun e => decide (entryKey e = k)

/-- Pointwise characterization of the batch upsert: at each key the
result is the row of the last entry in list order targeting that key
(`first_seen` taken from the pre-batch state), and keys no entry targets
are untouched. -/
theorem batchUpsert_apply (es : List BlacklistEntry) (db : BlacklistDB) (now : Nat)
    (k : BlacklistKey) :
    Database.batchUpsertBlacklistEntries db es now k =
      match (entriesForKey es k).getLast? with
      | none => db k
      | some e => some (rowOf e (firstSeenOf (db k) now) now) := by
  induction es generalizing db with
  | nil => simp [Database.batchUpsertBlacklistEntries, entriesForKey]
  | cons e es ih =>
    have hstep : Database.batchUpsertBlacklistEntries db (e :: es) now =
        Database.batchUpsertBlacklistEntries (Database.upsertBlacklistEntry db e now) es now := by
      simp [Database.batchUpsertBlacklistEntries]
    rw [hstep, ih]
    by_cases hk : entryKey e = k
    · have hfk : entriesForKey (e :: es) k = e :: entriesForKey es k := by
        simp [entriesForKey, hk]
      have hdbk : Database.upsertBlacklistEntry db e now k =
          some (rowOf e (firstSeenOf (db k) now) now) := by
        rw [upsertBlacklistEntry_apply]
        simp [hk]
      rw [hfk]
      cases hfe : entriesForKey es k with
      | nil => simp [hdbk]
      | cons f fs =>
        cases hgl : (f :: fs).getLast? with
        | none => simp at hgl
        | some e' =>
          have hcons : (e :: f :: fs).getLast? = some e' := by
            rw [List.getLast?_cons_cons, hgl]
          simp only [hgl, hcons, hdbk]
          unfold rowOf firstSeenOf
          simp
    · have hfk : entriesForKey (e :: es) k = entriesForKey es k := by
        simp [entriesForKey, hk]
      have hdbk : Database.upsertBlacklistEntry db e now k = db k := by
        rw [upsertBlacklistEntry_apply]
        rw [if_neg fun h => hk h.symm]
      rw [hfk, hdbk]

/-- C4: applying the same batch of BlacklistEvents twice through the
store upsert yields the same final set of BlacklistRecords as applying it
once, with `first_seen` set only on the first insert of a key and the
ingestion time `now` treated as a parameter. -/
theorem batchUpsert_idempotent (db : BlacklistDB) (es : List BlacklistEntry) (now : Nat) :
    Database.batchUpsertBlacklistEntries
        (Database.batchUpsertBlacklistEntries db es now) es now =
      Database.batchUpsertBlacklistEntries db es now := by
  funext k
  rw [batchUpsert_apply, batchUpsert_apply]
  cases hl : (entriesForKey es k).getLast? with
  | none => simp [hl]
  | some e => simp [hl, firstSeenOf, rowOf]

/-- C1 counterexample: two events on the same key with block numbers
1 < 2 and opposite directions, applied through the store upsert in the
real-time order B2-then-B1. The claim demands that the stored record keep
`is_blacklisted` of the block-2 event (`false`) and that the block-1
write not change `is_blacklisted`/`block_number`; the upsert has no
block-number guard, so the stored record ends with the block-1 event's
direction (`true`) and a regressed `block_number` of 1. -/
theorem upsert_out_of_order_regresses :
    Database.upsertBlacklistEntry
        (Database.upsertBlacklistEntry emptyDB
          { address := "0xaaaa", token := "USDT", network := "ETHEREUM",
            is_blacklisted := false, block_number := 2,
            transaction_hash := "t2", timestamp := 20 } 100)
        { address := "0xaaaa", token := "USDT", network := "ETHEREUM",
          is_blacklisted := true, block_number := 1,
          transaction_hash := "t1", timestamp := 10 } 101
        ("0xaaaa", "USDT", "ETHEREUM")
      = some { is_blacklisted := true, block_number := 1,
               transaction_hash := "t1", timestamp := 10,
               first_seen := 100, last_updated := 101 } := by
  decide

/-- C1 amended: the store upsert is unconditional last-write-wins in
real-time (application) order. For two events on the same key with block
numbers B1 < B2 and opposite directions, applying them in ascending block
order (B1 then B2) leaves `is_blacklisted` and `block_number` equal to
those of the event at B2, but applying them in the order B2 then B1
leaves the direction and block number of the event at B1: a write with a
lower `block_number` than what is stored does overwrite `is_blacklisted`
and `block_number`. -/
theorem upsert_unconditional_last_write_wins (db : BlacklistDB)
    (e1 e2 : BlacklistEntry) (n1 n2 : Nat)
    (hk : entryKey e1 = entryKey e2)
    (hb : e1.block_number < e2.block_number)
    (hd : e1.is_blacklisted = !e2.is_blacklisted) :
    (Database.upsertBlacklistEntry (Database.upsertBlacklistEntry db e1 n1) e2 n2
        (entryKey e2)).map (fun r => (r.is_blacklisted, r.block_number))
      = some (e2.is_blacklisted, e2.block_number)
    ∧ (Database.upsertBlacklistEntry (Database.upsertBlacklistEntry db e2 n1) e1 n2
        (entryKey e2)).map (fun r => (r.is_blacklisted, r.block_number))
      = some (e1.is_blacklisted, e1.block_number) := by
  constructor
  · rw [upsertBlacklistEntry_apply]
    simp [rowOf]
  · rw [upsertBlacklistEntry_apply, ← hk]
    simp [rowOf]

/-- Witness for `upsert_unconditional_last_write_wins` at a concrete pair
of opposite-direction events on one key with blocks 1 < 2. -/
theorem upsert_unconditional_last_write_wins_witness :
    (Database.upsertBlacklistEntry
        (Database.upsertBlacklistEntry emptyDB
          { address := "0xBBBB", token := "USDT", network := "ETHEREUM",
            is_blacklisted := true, block_number := 1,
            transaction_hash := "t1", timestamp := 10 } 5)
        { address := "0xBBBB", token := "USDT", network := "ETHEREUM",
          is_blacklisted := false, block_number := 2,
          transaction_hash := "t2", timestamp := 20 } 6
        (entryKey
          { address := "0xBBBB", token := "USDT", network := "ETHEREUM",
            is_blacklisted := false, block_number := 2,
            transaction_hash := "t2", timestamp := 20 })).map
        (fun r => (r.is_blacklisted, r.block_number)) = some (false, 2)
    ∧ (Database.upsertBlacklistEntry
        (Database.upsertBlacklistEntry emptyDB
          { address := "0xBBBB", token := "USDT", network := "ETHEREUM",
            is_blacklisted := false, block_number := 2,
            transaction_hash := "t2", timestamp := 20 } 5)
        { address := "0xBBBB", token := "USDT", network := "ETHEREUM",
          is_blacklisted := true, block_number := 1,
          transaction_hash := "t1", timestamp := 10 } 6
        (entryKey
          { address := "0xBBBB", token := "USDT", network := "ETHEREUM",
            is_blacklisted := false, block_number := 2,
            transaction_hash := "t2", timestamp := 20 })).map
        (fun r => (r.is_blacklisted, r.block_number)) = some (true, 1) :=
  upsert_unconditional_last_write_wins emptyDB
    { address := "0xBBBB", token := "USDT", network := "ETHEREUM",
      is_blacklisted := true, block_number := 1,
      transaction_hash := "t1", timestamp := 10 }
    { address := "0xBBBB", token := "USDT", network := "ETHEREUM",
      is_blacklisted := false, block_number := 2,
      transaction_hash := "t2", timestamp := 20 } 5 6
    (by decide) (by decide) (by decide)

/-- A raw Ethereum log as returned by `web3.eth.getPastLogs`. `data` is
`none` when the field is absent (falsy in the source's `!log.data`
check); `topics` is the (possibly empty) topic list. -/
structure EthLog where
  data : Option String
  topics : List String
  blockNumber : Nat
  transactionHash : String
  deriving Repr, DecidableEq

/-- The `EVENTS` table of `constants.js`. In the source each value is
`web3.utils.keccak256` of the signature string, computed by an external
library at startup; the sync code only ever compares `topics[0]` against
these values, so each signature is represented here by its preimage
string, which preserves the one property the comparisons rely on: the
four signatures are pairwise distinct. -/
def EVENTS.ADDED_BLACKLIST : String := "AddedBlackList(address)"

/-- Signature `EVENTS.REMOVED_BLACKLIST` of `constants.js` (see
`EVENTS.ADDED_BLACKLIST` for the representation). -/
def EVENTS.REMOVED_BLACKLIST : String := "RemovedBlackList(address)"

/-- Signature `EVENTS.BLACKLISTED` of `constants.js` (see `EVENTS.ADDED_BLACKLIST`
for the representation). -/
def EVENTS.BLACKLISTED : String := "Blacklisted(address)"

/-- Signature `EVENTS.UNBLACKLISTED` of `constants.js` (see
`EVENTS.ADDED_BLACKLIST` for the representation). -/
def EVENTS.UNBLACKLISTED : String := "UnBlacklisted(address)"

/-- The address-extraction half of `EthereumSync.processLog`. For USDT
the address is read from the `data` field (`'0x' +
log.data.substring(26)` after the `!log.data || log.data.length < 66`
check); for every other token from `topics[1]` (`'0x' +
log.topics[1].substring(26)` after the `!log.topics ||
log.topics.length < 2` check). -/
def EthereumSync.extractAddress (token : String) (log : EthLog) : Except String String :=
  if token = "USDT" then
    match log.data with
    | some d =>
        if d.length < 66 then
          Except.error ("Invalid log structure for " ++ token ++ ": missing address data")
        else Except.ok ("0x" ++ d.drop 26)
    | none =>
        Except.error ("Invalid log structure for " ++ token ++ ": missing address data")
  else
    match log.topics with
    | t0 :: t1 :: rest => Except.ok ("0x" ++ t1.drop 26)
    | _ =>
        Except.error ("Invalid log structure for " ++ token ++ ": missing address topic")

/-- The direction half of `EthereumSync.processLog`: `isBlacklisted`
starts `true` and is set to `false` when `topics[0]` equals
`EVENTS.REMOVED_BLACKLIST` or `EVENTS.UNBLACKLISTED`. An absent
`topics[0]` compares unequal to both signatures. -/
def EthereumSync.isBlacklistedOf (topics : List String) : Bool :=
  if topics.headD "" = EVENTS.REMOVED_BLACKLIST
      ∨ topics.headD "" = EVENTS.UNBLACKLISTED then false else true

/-- Embedding of `EthereumSync.processLog`: extracts the address per the token's
layout, resolves the direction from `topics[0]`, and looks up the block
timestamp (`web3.eth.getBlock`, modelled by the oracle `blockTs`). A
failed address extraction is a thrown error. -/
def EthereumSync.processLog (blockTs : Nat → Nat) (token : String) (log : EthLog) :
    Except String BlacklistEntry :=
  match EthereumSync.extractAddress token log with
  | Except.error e => Except.error e
  | Except.ok address =>
      Except.ok
        { address := address
          token := token
          network := "ETHEREUM"
          is_blacklisted := EthereumSync.isBlacklistedOf log.topics
          block_number := log.blockNumber
          transaction_hash := log.transactionHash
          timestamp := blockTs log.blockNumber }

set_option maxRecDepth 20000 in
/-- C3: address extraction is layout-dependent and total over well-formed
input. For a USDT log (address not an indexed topic) with a one-word
`data` payload (66 chars: `0x` + 64 hex digits) the returned address is
`0x` plus the trailing 40 hex digits (20 bytes) of the payload; for a
USDC log (address an indexed topic) it is `0x` plus the trailing 40 hex
digits of `topics[1]`. Concretely, an add-signature event carrying
address bytes `ABCDEF0123456789ABCDEF0123456789ABCD1234` normalizes,
through `processLog` and the store's key lowercasing, to the canonical
lowercase address `0xabcdef0123456789abcdef0123456789abcd1234` with
direction add — identically for the two layouts. -/
theorem processLog_layout_normalization (blockTs : Nat → Nat) :
    (∀ (log : EthLog) (d : String), log.data = some d → d.length = 66 →
      EthereumSync.extractAddress "USDT" log =
        Except.ok ("0x" ++ d.drop (d.length - 40)))
    ∧ (∀ (log : EthLog) (t0 t1 : String) (rest : List String),
      log.topics = t0 :: t1 :: rest → t1.length = 66 →
      EthereumSync.extractAddress "USDC" log =
        Except.ok ("0x" ++ t1.drop (t1.length - 40)))
    ∧ (EthereumSync.processLog blockTs "USDT"
        { data := some
            "0x000000000000000000000000ABCDEF0123456789ABCDEF0123456789ABCD1234"
          topics := [EVENTS.ADDED_BLACKLIST]
          blockNumber := 700
          transactionHash := "txA" }).map (fun e => (entryKey e, e.is_blacklisted))
      = Except.ok
          (("0xabcdef0123456789abcdef0123456789abcd1234", "USDT", "ETHEREUM"), true)
    ∧ (EthereumSync.processLog blockTs "USDC"
        { data := none
          topics := [EVENTS.BLACKLISTED,
            "0x000000000000000000000000ABCDEF0123456789ABCDEF0123456789ABCD1234"]
          blockNumber := 700
          transactionHash := "txA" }).map (fun e => (entryKey e, e.is_blacklisted))
      = Except.ok
          (("0xabcdef0123456789abcdef0123456789abcd1234", "USDC", "ETHEREUM"), true) := by
  refine ⟨?_, ?_, ?_, ?_⟩
  · intro log d hd hlen
    simp [EthereumSync.extractAddress, hd, hlen]
  · intro log t0 t1 rest htop hlen
    simp [EthereumSync.extractAddress, htop, hlen]
  · rfl
  · rfl

/-- Witness for `processLog_layout_normalization`: the trailing-20-bytes
conclusions instantiated at the concrete add-signature logs. -/
theorem processLog_layout_normalization_witness :
    EthereumSync.extractAddress "USDT"
        { data := some
            "0x000000000000000000000000ABCDEF0123456789ABCDEF0123456789ABCD1234"
          topics := [EVENTS.ADDED_BLACKLIST]
          blockNumber := 700
          transactionHash := "txA" }
      = Except.ok ("0x" ++
          ("0x000000000000000000000000ABCDEF0123456789ABCDEF0123456789ABCD1234".drop
            ("0x000000000000000000000000ABCDEF0123456789ABCDEF0123456789ABCD1234".length
              - 40))) :=
  (processLog_layout_normalization (fun _ => 0)).1
    { data := some
        "0x000000000000000000000000ABCDEF0123456789ABCDEF0123456789ABCD1234"
      topics := [EVENTS.ADDED_BLACKLIST]
      blockNumber := 700
      transactionHash := "txA" }
    "0x000000000000000000000000ABCDEF0123456789ABCDEF0123456789ABCD1234"
    rfl (by decide)

/-- A raw TRON event as returned by the TronGrid `/v1/contracts/.../events`
endpoint. `result_user` models `event.result._user || event.result[0]`,
the denylisted address in the provider's base58 form. -/
structure TronEvent where
  result_user : String
  event_name : String
  block_number : Nat
  transaction_id : String
  block_timestamp : Nat
  deriving Repr, DecidableEq

/-- Embedding of `TronSync.processEvent`: converts the address to hex via
`tronWeb.address.toHex` (an external library call, modelled by the
oracle `toHex`), and resolves the direction from `event_name`:
`isBlacklisted` starts `true` and is set to `false` for
`'RemovedBlackList'` or `'UnBlacklisted'`. -/
def TronSync.processEvent (toHex : String → String) (token : String) (ev : TronEvent) :
    BlacklistEntry :=
  { address := toHex ev.result_user
    token := token
    network := "TRON"
    is_blacklisted :=
      if ev.event_name = "RemovedBlackList" ∨ ev.event_name = "UnBlacklisted"
      then false else true
    block_number := ev.block_number
    transaction_hash := ev.transaction_id
    timestamp := ev.block_timestamp }

/-- C10: on both normalizers the direction defaults to add. An Ethereum
log whose `topics[0]` is neither `EVENTS.REMOVED_BLACKLIST` nor
`EVENTS.UNBLACKLISTED` — including an entirely unrecognized signature —
normalizes (when address extraction succeeds) to `is_blacklisted = true`;
a TRON event whose `event_name` is neither `'RemovedBlackList'` nor
`'UnBlacklisted'` likewise normalizes to `is_blacklisted = true`. -/
theorem unknown_event_kinds_default_to_add (blockTs : Nat → Nat)
    (toHex : String → String) :
    (∀ (token : String) (log : EthLog) (e : BlacklistEntry),
      EthereumSync.processLog blockTs token log = Except.ok e →
      log.topics.headD "" ≠ EVENTS.REMOVED_BLACKLIST →
      log.topics.headD "" ≠ EVENTS.UNBLACKLISTED →
      e.is_blacklisted = true)
    ∧ (∀ (token : String) (ev : TronEvent),
      ev.event_name ≠ "RemovedBlackList" →
      ev.event_name ≠ "UnBlacklisted" →
      (TronSync.processEvent toHex token ev).is_blacklisted = true) := by
  constructor
  · intro token log e hok h1 h2
    unfold EthereumSync.processLog at hok
    cases hex : EthereumSync.extractAddress token log with
    | error msg => rw [hex] at hok; exact absurd hok (by simp)
    | ok address =>
        rw [hex] at hok
        simp only [Except.ok.injEq] at hok
        subst hok
        unfold EthereumSync.isBlacklistedOf
        rw [if_neg]
        simpa using And.intro h1 h2
  · intro token ev h1 h2
    unfold TronSync.processEvent
    simp [h1, h2]

set_option maxRecDepth 20000 in
/-- Witness for `unknown_event_kinds_default_to_add`: a USDT log with the
unrecognized signature `"Paused()"` and a TRON event with the
unrecognized name `"DestroyedBlackFunds"` both normalize to
`is_blacklisted = true`. -/
theorem unknown_event_kinds_default_to_add_witness :
    ({ address := "0x" ++
        ("0x000000000000000000000000ABCDEF0123456789ABCDEF0123456789ABCD1234".drop 26)
       token := "USDT", network := "ETHEREUM", is_blacklisted := true,
       block_number := 3, transaction_hash := "tx3",
       timestamp := 0 } : BlacklistEntry).is_blacklisted = true
    ∧ (TronSync.processEvent (fun s => s) "USDT"
        { result_user := "TAddr", event_name := "DestroyedBlackFunds",
          block_number := 9, transaction_id := "tt",
          block_timestamp := 5 }).is_blacklisted = true := by
  constructor
  · exact (unknown_event_kinds_default_to_add (fun _ => 0) (fun s => s)).1 "USDT"
      { data := some
          "0x000000000000000000000000ABCDEF0123456789ABCDEF0123456789ABCD1234"
        topics := ["Paused()"]
        blockNumber := 3
        transactionHash := "tx3" }
      _ rfl (by decide) (by decide)
  · exact (unknown_event_kinds_default_to_add (fun _ => 0) (fun s => s)).2 "USDT"
      { result_user := "TAddr", event_name := "DestroyedBlackFunds",
        block_number := 9, transaction_id := "tt", block_timestamp := 5 }
      (by decide) (by decide)

/-- Outcome of one `web3.eth.getPastLogs` call as classified by the
`catch` in `EthereumSync.syncToken`: a log list, an error whose message
matches one of the three RPC size-limit patterns (`'query returned more
than'`, `'range is too large'`, `'max is 1k blocks'`), or any other
error. -/
inductive FetchOutcome where
  | ok (logs : List EthLog)
  | sizeLimitError
  | otherError
  deriving Repr, DecidableEq

/-- The chunk-size update on a size-limit error in
`EthereumSync.syncToken`: `chunkSize = Math.floor(chunkSize / 2)`,
then `if (chunkSize < 100) chunkSize = 100`. -/
def EthereumSync.nextChunk (c : Nat) : Nat :=
  let halved := c / 2
  if halved < 100 then 100 else halved

/-- Result of processing one fetch window of the inner loop of
`EthereumSync.syncToken`. `advanced` carries the post-window table, the
persisted cursor (`updateSyncStatus(..., toBlock)`), the next window
start (`currentBlock = toBlock + 1`) and the unchanged chunk size;
`retryShrunk` carries the unchanged table and cursor, the unshifted
window start and the halved chunk size; `aborted` (a rethrown error)
carries the unchanged table and cursor. `outOfFuel` only arises in the
fuelled iteration `EthereumSync.runWindow`. -/
inductive WindowOutcome where
  | advanced (db : BlacklistDB) (cursor : Nat) (nextFrom : Nat) (chunk : Nat)
  | retryShrunk (db : BlacklistDB) (cursor : Nat) (sameFrom : Nat) (chunk : Nat)
  | aborted (db : BlacklistDB) (cursor : Nat)
  | outOfFuel

/-- One iteration of the inner `while (currentBlock <= batchEnd)` loop of
`EthereumSync.syncToken`: compute `toBlock = min(currentBlock + chunkSize
- 1, batchEnd)`, fetch, and either (a) on a size-limit error halve the
chunk size and `continue` with the same `currentBlock`, (b) on any other
error rethrow, leaving the table and the sync cursor untouched, or (c) on
success normalize all logs (aborting on the first `processLog` error,
before any write), batch-upsert the entries when the log list is
non-empty, persist the cursor at `toBlock`, and move to `toBlock + 1`. -/
def EthereumSync.processOneWindow (fetch : Nat → Nat → FetchOutcome)
    (blockTs : Nat → Nat) (token : String) (db : BlacklistDB) (cursor : Nat)
    (currentBlock chunkSize batchEnd : Nat) (now : Nat) : WindowOutcome :=
  let toBlock := min (currentBlock + chunkSize - 1) batchEnd
  match fetch currentBlock toBlock with
  | FetchOutcome.sizeLimitError =>
      WindowOutcome.retryShrunk db cursor currentBlock (EthereumSync.nextChunk chunkSize)
  | FetchOutcome.otherError => WindowOutcome.aborted db cursor
  | FetchOutcome.ok logs =>
      if logs.isEmpty then WindowOutcome.advanced db toBlock (toBlock + 1) chunkSize
      else
        match logs.mapM (EthereumSync.processLog blockTs token) with
        | Except.error _ => WindowOutcome.aborted db cursor
        | Except.ok entries =>
            WindowOutcome.advanced (Database.batchUpsertBlacklistEntries db entries now)
              toBlock (toBlock + 1) chunkSize

/-- The retry loop around one window: iterate
`EthereumSync.processOneWindow` as long as it yields `retryShrunk`,
bounded by `fuel` iterations. -/
def EthereumSync.runWindow (fetch : Nat → Nat → FetchOutcome) (blockTs : Nat → Nat)
    (token : String) (db : BlacklistDB) (cursor : Nat) (batchEnd now : Nat) :
    Nat → Nat → Nat → WindowOutcome
  | 0, _, _ => WindowOutcome.outOfFuel
  | fuel + 1, currentBlock, chunkSize =>
      match EthereumSync.processOneWindow fetch blockTs token db cursor currentBlock
          chunkSize batchEnd now with
      | WindowOutcome.retryShrunk db' cursor' sameFrom chunk' =>
          EthereumSync.runWindow fetch blockTs token db' cursor' batchEnd now
            fuel sameFrom chunk'
      | r => r

/-- The computation `fromBlock = safeMax(lastSyncedBlock + 1, startBlock)` at the top of
`EthereumSync.syncToken`: where a restarted (non-full-resync) pass
resumes fetching. -/
def EthereumSync.resumeFrom (lastSyncedBlock startBlock : Nat) : Nat :=
  max (lastSyncedBlock + 1) startBlock

/-- C5: on a size-limit fetch error the planner halves the chunk size
with a floor of 100 (`nextChunk c = max (c / 2) 100`, never below 100)
and retries the same unshifted window start; and if the fetch returns a
size-limit error only for windows spanning at least 100 blocks past the
start, the retry loop settles within `c + 1` iterations — it reaches a
chunk at which the fetch no longer size-limits and then either advances
(success) or aborts (fatal error), never retrying forever. -/
theorem syncToken_shrink_convergence (fetch : Nat → Nat → FetchOutcome)
    (blockTs : Nat → Nat) (token : String) (db : BlacklistDB)
    (cursor batchEnd now cur c fuel : Nat)
    (hfloor : ∀ toB, toB < cur + 100 → fetch cur toB ≠ FetchOutcome.sizeLimitError)
    (hfuel : c + 1 ≤ fuel) :
    (∀ c', EthereumSync.nextChunk c' = max (c' / 2) 100 ∧
      100 ≤ EthereumSync.nextChunk c')
    ∧ (∀ f cc, fetch cur (min (cur + cc - 1) batchEnd) = FetchOutcome.sizeLimitError →
      EthereumSync.runWindow fetch blockTs token db cursor batchEnd now (f + 1) cur cc =
        EthereumSync.runWindow fetch blockTs token db cursor batchEnd now f cur
          (EthereumSync.nextChunk cc))
    ∧ ((∃ db2 cu nf ch,
        EthereumSync.runWindow fetch blockTs token db cursor batchEnd now fuel cur c =
          WindowOutcome.advanced db2 cu nf ch)
      ∨ (∃ db2 cu,
        EthereumSync.runWindow fetch blockTs token db cursor batchEnd now fuel cur c =
          WindowOutcome.aborted db2 cu)) := by
  refine ⟨?_, ?_, ?_⟩
  · intro c'
    refine ⟨?_, ?_⟩
    · simp only [EthereumSync.nextChunk]
      split <;> omega
    · simp only [EthereumSync.nextChunk]
      split <;> omega
  · intro f cc hsl
    conv_lhs => rw [EthereumSync.runWindow]
    simp only [EthereumSync.processOneWindow]
    rw [hsl]
  · have key : ∀ c fuel, c + 1 ≤ fuel →
        ((∃ db2 cu nf ch,
          EthereumSync.runWindow fetch blockTs token db cursor batchEnd now fuel cur c =
            WindowOutcome.advanced db2 cu nf ch)
        ∨ (∃ db2 cu,
          EthereumSync.runWindow fetch blockTs token db cursor batchEnd now fuel cur c =
            WindowOutcome.aborted db2 cu)) := by
      intro c
      induction c using Nat.strong_induction_on with
      | _ c ih =>
        intro fuel hfl
        obtain ⟨f, rfl⟩ : ∃ f, fuel = f + 1 := ⟨fuel - 1, by omega⟩
        rw [EthereumSync.runWindow]
        simp only [EthereumSync.processOneWindow]
        cases hfetch : fetch cur (min (cur + c - 1) batchEnd) with
        | otherError =>
            right
            exact ⟨db, cursor, rfl⟩
        | ok logs =>
            by_cases hL : logs.isEmpty
            · simp only [hL, if_true]
              left
              exact ⟨db, _, _, _, rfl⟩
            · simp only [hL, if_false]
              cases hm : logs.mapM (EthereumSync.processLog blockTs token) with
              | error msg => simp only [hm]; right; exact ⟨db, cursor, rfl⟩
              | ok entries => simp only [hm]; left; exact ⟨_, _, _, _, rfl⟩
        | sizeLimitError =>
            have htoB : ¬ (min (cur + c - 1) batchEnd < cur + 100) :=
              fun hlt => hfloor _ hlt hfetch
            have hc : 101 ≤ c := by omega
            have hlt : EthereumSync.nextChunk c < c := by
              simp only [EthereumSync.nextChunk]
              split <;> omega
            exact ih (EthereumSync.nextChunk c) hlt f (by omega)
    exact key c fuel hfuel

/-- A fetch oracle that reports a size-limit error exactly when the
requested window spans more than 100 blocks, and otherwise returns no
logs. -/
def shrinkFetchOracle : Nat → Nat → FetchOutcome := fun f toB =>
  if 100 < toB - f + 1 then FetchOutcome.sizeLimitError else FetchOutcome.ok []

/-- Witness for `syncToken_shrink_convergence`: starting from chunk size
10000 against `shrinkFetchOracle`, the retry loop settles within 10001
iterations. -/
theorem syncToken_shrink_convergence_witness :
    (∃ db2 cu nf ch,
      EthereumSync.runWindow shrinkFetchOracle (fun _ => 0) "USDT" emptyDB 7 999 42
          10001 0 10000 = WindowOutcome.advanced db2 cu nf ch)
    ∨ (∃ db2 cu,
      EthereumSync.runWindow shrinkFetchOracle (fun _ => 0) "USDT" emptyDB 7 999 42
          10001 0 10000 = WindowOutcome.aborted db2 cu) :=
  (syncToken_shrink_convergence shrinkFetchOracle (fun _ => 0) "USDT" emptyDB 7 999 42
    0 10000 10001
    (by
      intro toB h
      have hn : ¬ (100 < toB - 0 + 1) := by omega
      simp only [shrinkFetchOracle, if_neg hn]
      exact fun hcon => FetchOutcome.noConfusion hcon)
    (by omega)).2.2

/-- C6: cursor discipline of the backfill window loop. A fetch error
(other than the size-limit retry class) leaves the table and the cursor
at their prior values; a normalization error for any log of the window
likewise aborts with table and cursor untouched; on success the cursor is
persisted at `toBlock` in the same step that applies the window's batch,
and the next window starts at `toBlock + 1`; and a restarted pass resumes
fetching at `lastSyncedBlock + 1` whenever the deployment start block
does not exceed it. -/
theorem syncToken_cursor_discipline (fetch : Nat → Nat → FetchOutcome)
    (blockTs : Nat → Nat) (token : String) (db : BlacklistDB)
    (cursor cur chunk batchEnd now : Nat) :
    (fetch cur (min (cur + chunk - 1) batchEnd) = FetchOutcome.otherError →
      EthereumSync.processOneWindow fetch blockTs token db cursor cur chunk batchEnd now =
        WindowOutcome.aborted db cursor)
    ∧ (∀ logs msg, fetch cur (min (cur + chunk - 1) batchEnd) = FetchOutcome.ok logs →
      logs.mapM (EthereumSync.processLog blockTs token) = Except.error msg →
      EthereumSync.processOneWindow fetch blockTs token db cursor cur chunk batchEnd now =
        WindowOutcome.aborted db cursor)
    ∧ (∀ logs entries, fetch cur (min (cur + chunk - 1) batchEnd) = FetchOutcome.ok logs →
      logs ≠ [] →
      logs.mapM (EthereumSync.processLog blockTs token) = Except.ok entries →
      EthereumSync.processOneWindow fetch blockTs token db cursor cur chunk batchEnd now =
        WindowOutcome.advanced (Database.batchUpsertBlacklistEntries db entries now)
          (min (cur + chunk - 1) batchEnd) (min (cur + chunk - 1) batchEnd + 1) chunk)
    ∧ (∀ c s, s ≤ c + 1 → EthereumSync.resumeFrom c s = c + 1) := by
  refine ⟨?_, ?_, ?_, ?_⟩
  · intro hfe
    simp only [EthereumSync.processOneWindow]
    rw [hfe]
  · intro logs msg hfe hm
    simp only [EthereumSync.processOneWindow]
    rw [hfe]
    have hne : logs.isEmpty = false := by
      cases logs with
      | nil =>
          rw [List.mapM_nil] at hm
          exact absurd hm (by simp [pure, Except.pure])
      | cons a as => rfl
    simp only [hne, Bool.false_eq_true, if_false, hm]
  · intro logs entries hfe hne hm
    simp only [EthereumSync.processOneWindow]
    rw [hfe]
    have hne2 : logs.isEmpty = false := by
      cases logs with
      | nil => exact absurd rfl hne
      | cons a as => rfl
    simp only [hne2, Bool.false_eq_true, if_false, hm]
  · intro c s hs
    simp only [EthereumSync.resumeFrom]
    omega

/-- Witness for `syncToken_cursor_discipline`: a concrete one-log window
whose fetch succeeds; the window advances the cursor to `toBlock = 9`
with the batch applied, and a pass with cursor 10 and start block 3
resumes at block 11. -/
theorem syncToken_cursor_discipline_witness :
    EthereumSync.processOneWindow
        (fun f toB => FetchOutcome.ok
          [{ data := some
              "0x000000000000000000000000ABCDEF0123456789ABCDEF0123456789ABCD1234"
             topics := [EVENTS.ADDED_BLACKLIST]
             blockNumber := 7
             transactionHash := "tx7" }])
        (fun _ => 0) "USDT" emptyDB 4 5 5 9 42 =
      WindowOutcome.advanced
        (Database.batchUpsertBlacklistEntries emptyDB
          [{ address := "0x" ++
              ("0x000000000000000000000000ABCDEF0123456789ABCDEF0123456789ABCD1234".drop 26)
             token := "USDT", network := "ETHEREUM", is_blacklisted := true,
             block_number := 7, transaction_hash := "tx7", timestamp := 0 }] 42)
        (min (5 + 5 - 1) 9) (min (5 + 5 - 1) 9 + 1) 5 :=
  (syncToken_cursor_discipline
    (fun f toB => FetchOutcome.ok
      [{ data := some
          "0x000000000000000000000000ABCDEF0123456789ABCDEF0123456789ABCD1234"
         topics := [EVENTS.ADDED_BLACKLIST]
         blockNumber := 7
         transactionHash := "tx7" }])
    (fun _ => 0) "USDT" emptyDB 4 5 5 9 42).2.2.1
    [{ data := some
        "0x000000000000000000000000ABCDEF0123456789ABCDEF0123456789ABCD1234"
       topics := [EVENTS.ADDED_BLACKLIST]
       blockNumber := 7
       transactionHash := "tx7" }]
    [{ address := "0x" ++
        ("0x000000000000000000000000ABCDEF0123456789ABCDEF0123456789ABCD1234".drop 26)
       token := "USDT", network := "ETHEREUM", is_blacklisted := true,
       block_number := 7, transaction_hash := "tx7", timestamp := 0 }]
    rfl (by simp) rfl

/-- If any element of a list fails under an `Except`-valued map, the
whole `mapM` fails. -/
theorem mapM_error_of_mem {α β : Type} (f : α → Except String β) :
    ∀ (l : List α) (x : α) (e : String), x ∈ l → f x = Except.error e →
    ∃ msg, l.mapM f = Except.error msg := by
  intro l
  induction l with
  | nil => intro x e hx _; cases hx
  | cons a t ih =>
    intro x e hx hfx
    rw [List.mapM_cons]
    rcases List.mem_cons.mp hx with rfl | hxt
    · rw [hfx]
      exact ⟨e, rfl⟩
    · cases hfa : f a with
      | error ea => exact ⟨ea, rfl⟩
      | ok b =>
        obtain ⟨msg, hmsg⟩ := ih x e hxt hfx
        rw [hmsg]
        exact ⟨msg, rfl⟩

/-- C8: if any single raw log in a window is malformed (`processLog`
throws), the whole window's processing aborts: nothing is written to the
store and the cursor keeps its prior value, so no partially-normalized
batch is ever persisted. -/
theorem malformed_log_fails_batch (fetch : Nat → Nat → FetchOutcome)
    (blockTs : Nat → Nat) (token : String) (db : BlacklistDB)
    (cursor cur chunk batchEnd now : Nat) (logs : List EthLog) (x : EthLog)
    (msg : String)
    (hfe : fetch cur (min (cur + chunk - 1) batchEnd) = FetchOutcome.ok logs)
    (hmem : x ∈ logs)
    (herr : EthereumSync.processLog blockTs token x = Except.error msg) :
    EthereumSync.processOneWindow fetch blockTs token db cursor cur chunk batchEnd now =
      WindowOutcome.aborted db cursor := by
  obtain ⟨m, hm⟩ :=
    mapM_error_of_mem (EthereumSync.processLog blockTs token) logs x msg hmem herr
  simp only [EthereumSync.processOneWindow]
  rw [hfe]
  have hne : logs.isEmpty = false := by
    cases logs with
    | nil => cases hmem
    | cons a as => rfl
  simp only [hne, Bool.false_eq_true, if_false, hm]

/-- Witness for `malformed_log_fails_batch`: a window containing one
well-formed add log and one USDT log whose `data` payload is too short
aborts with the table and cursor untouched. -/
theorem malformed_log_fails_batch_witness :
    EthereumSync.processOneWindow
        (fun f toB => FetchOutcome.ok
          [{ data := some
              "0x000000000000000000000000ABCDEF0123456789ABCDEF0123456789ABCD1234"
             topics := [EVENTS.ADDED_BLACKLIST]
             blockNumber := 7
             transactionHash := "tx7" },
           { data := some "0x00"
             topics := [EVENTS.ADDED_BLACKLIST]
             blockNumber := 8
             transactionHash := "tx8" }])
        (fun _ => 0) "USDT" emptyDB 4 5 5 9 42 = WindowOutcome.aborted emptyDB 4 :=
  malformed_log_fails_batch
    (fun f toB => FetchOutcome.ok
      [{ data := some
          "0x000000000000000000000000ABCDEF0123456789ABCDEF0123456789ABCD1234"
         topics := [EVENTS.ADDED_BLACKLIST]
         blockNumber := 7
         transactionHash := "tx7" },
       { data := some "0x00"
         topics := [EVENTS.ADDED_BLACKLIST]
         blockNumber := 8
         transactionHash := "tx8" }])
    (fun _ => 0) "USDT" emptyDB 4 5 5 9 42
    [{ data := some
        "0x000000000000000000000000ABCDEF0123456789ABCDEF0123456789ABCD1234"
       topics := [EVENTS.ADDED_BLACKLIST]
       blockNumber := 7
       transactionHash := "tx7" },
     { data := some "0x00"
       topics := [EVENTS.ADDED_BLACKLIST]
       blockNumber := 8
       transactionHash := "tx8" }]
    { data := some "0x00"
      topics := [EVENTS.ADDED_BLACKLIST]
      blockNumber := 8
      transactionHash := "tx8" }
    "Invalid log structure for USDT: missing address data"
    rfl (by simp) rfl

/-- The sort `allEvents.sort((a, b) => a.block_number - b.block_number)` in
`TronSync.syncToken`: an ascending, stable sort by block number
(JavaScript `Array.prototype.sort` is stable). -/
def TronSync.sortEvents (es : List TronEvent) : List TronEvent :=
  es.mergeSort (fun a b => decide (a.block_number ≤ b.block_number))

/-- The entry batch the TRON sync path applies for one window: the merged
event lists sorted ascending by block number, then normalized in order by
`TronSync.processEvent`. -/
def TronSync.prepareEntries (toHex : String → String) (token : String)
    (es : List TronEvent) : List BlacklistEntry :=
  (TronSync.sortEvents es).map (TronSync.processEvent toHex token)

/-- In a batch sorted ascending by block number, the last entry of the
list dominates every entry of the list in block number. -/
theorem getLast_block_max {l : List BlacklistEntry}
    (hp : l.Pairwise (fun a b => a.block_number ≤ b.block_number))
    {e : BlacklistEntry} (hl : l.getLast? = some e) :
    ∀ x ∈ l, x.block_number ≤ e.block_number := by
  induction l with
  | nil => cases hl
  | cons a t ih =>
    intro x hx
    cases t with
    | nil =>
        have : a = e := by
          simp only [List.getLast?_singleton, Option.some.injEq] at hl
          exact hl
        rcases List.mem_singleton.mp hx with rfl
        rw [this]
    | cons b t' =>
        rw [List.getLast?_cons_cons] at hl
        have hpt := List.pairwise_cons.mp hp
        have hem : e ∈ b :: t' := List.mem_of_getLast?_eq_some hl
        rcases List.mem_cons.mp hx with rfl | hxt
        · exact hpt.1 e hem
        · exact ih hpt.2 hl x hxt

set_option maxRecDepth 40000 in
/-- C7 counterexample: the Ethereum sync path applies the window's logs
in the order the provider returned them, without sorting. For a USDT
window returning a block-2 remove log followed by a block-1 add log for
the same address, the batch built by `syncToken` is not in ascending
block order, and the stored record is that of the block-1 add event
(`is_blacklisted = true`, `block_number = 1`) even though the
highest-block event of the batch is the block-2 remove. -/
theorem ethereum_batch_not_sorted :
    List.mapM (EthereumSync.processLog (fun _ => 0) "USDT")
        [{ data := some
            "0x000000000000000000000000aaaaaaaaaaaaaaaaaaaaaaaaaaaaaaaaaaaaaaaa"
           topics := [EVENTS.REMOVED_BLACKLIST]
           blockNumber := 2
           transactionHash := "tx2" },
         { data := some
            "0x000000000000000000000000aaaaaaaaaaaaaaaaaaaaaaaaaaaaaaaaaaaaaaaa"
           topics := [EVENTS.ADDED_BLACKLIST]
           blockNumber := 1
           transactionHash := "tx1" }]
      = Except.ok
          [{ address := "0xaaaaaaaaaaaaaaaaaaaaaaaaaaaaaaaaaaaaaaaa", token := "USDT",
             network := "ETHEREUM", is_blacklisted := false, block_number := 2,
             transaction_hash := "tx2", timestamp := 0 },
           { address := "0xaaaaaaaaaaaaaaaaaaaaaaaaaaaaaaaaaaaaaaaa", token := "USDT",
             network := "ETHEREUM", is_blacklisted := true, block_number := 1,
             transaction_hash := "tx1", timestamp := 0 }]
    ∧ ¬ ([{ address := "0xaaaaaaaaaaaaaaaaaaaaaaaaaaaaaaaaaaaaaaaa", token := "USDT",
             network := "ETHEREUM", is_blacklisted := false, block_number := 2,
             transaction_hash := "tx2", timestamp := 0 },
           { address := "0xaaaaaaaaaaaaaaaaaaaaaaaaaaaaaaaaaaaaaaaa", token := "USDT",
             network := "ETHEREUM", is_blacklisted := true, block_number := 1,
             transaction_hash := "tx1", timestamp := 0 }] : List BlacklistEntry).Pairwise
          (fun a b => a.block_number ≤ b.block_number)
    ∧ (Database.batchUpsertBlacklistEntries emptyDB
          [{ address := "0xaaaaaaaaaaaaaaaaaaaaaaaaaaaaaaaaaaaaaaaa", token := "USDT",
             network := "ETHEREUM", is_blacklisted := false, block_number := 2,
             transaction_hash := "tx2", timestamp := 0 },
           { address := "0xaaaaaaaaaaaaaaaaaaaaaaaaaaaaaaaaaaaaaaaa", token := "USDT",
             network := "ETHEREUM", is_blacklisted := true, block_number := 1,
             transaction_hash := "tx1", timestamp := 0 }] 42
          ("0xaaaaaaaaaaaaaaaaaaaaaaaaaaaaaaaaaaaaaaaa", "USDT", "ETHEREUM")).map
          (fun r => (r.is_blacklisted, r.block_number))
      = some (true, 1) := by
  refine ⟨rfl, by decide, ?_⟩
  rfl

/-- A successfully normalized Ethereum log keeps its block number. -/
theorem processLog_block_number (blockTs : Nat → Nat) (token : String)
    (log : EthLog) (e : BlacklistEntry)
    (h : EthereumSync.processLog blockTs token log = Except.ok e) :
    e.block_number = log.blockNumber := by
  unfold EthereumSync.processLog at h
  cases hex : EthereumSync.extractAddress token log with
  | error msg => rw [hex] at h; exact absurd h (by simp)
  | ok address =>
      rw [hex] at h
      simp only [Except.ok.injEq] at h
      subst h
      rfl

/-- C7 amended: only the TRON sync path sorts its batch. The TRON batch
for a window is sorted ascending by block number (a permutation of the
merged event lists), so at every key the stored record is that of a
maximal-block entry for the key; the Ethereum path normalizes the
provider's logs in the order they were returned, preserving that order
(and its block numbers) with no sorting step. -/
theorem tron_sorted_highest_block_wins (toHex : String → String) (token : String)
    (es : List TronEvent) (db : BlacklistDB) (now : Nat) (k : BlacklistKey) :
    (TronSync.sortEvents es).Pairwise (fun a b => a.block_number ≤ b.block_number)
    ∧ (TronSync.sortEvents es).Perm es
    ∧ (∀ e, (entriesForKey (TronSync.prepareEntries toHex token es) k).getLast? = some e →
        Database.batchUpsertBlacklistEntries db (TronSync.prepareEntries toHex token es)
            now k = some (rowOf e (firstSeenOf (db k) now) now)
        ∧ ∀ x ∈ TronSync.prepareEntries toHex token es, entryKey x = k →
            x.block_number ≤ e.block_number)
    ∧ (∀ (blockTs : Nat → Nat) (logs : List EthLog) (entries : List BlacklistEntry),
        logs.mapM (EthereumSync.processLog blockTs token) = Except.ok entries →
        entries.map BlacklistEntry.block_number = logs.map EthLog.blockNumber) := by
  have hsorted : (TronSync.sortEvents es).Pairwise
      (fun a b => a.block_number ≤ b.block_number) := by
    have h := @List.sorted_mergeSort TronEvent
      (fun a b : TronEvent => decide (a.block_number ≤ b.block_number))
      (fun a b c h1 h2 => decide_eq_true
        (Nat.le_trans (of_decide_eq_true h1) (of_decide_eq_true h2)))
      (fun a b => by
        rcases Nat.le_total a.block_number b.block_number with h | h <;>
          simp [decide_eq_true h])
      es
    exact h.imp fun hab => of_decide_eq_true hab
  refine ⟨hsorted, List.mergeSort_perm es _, ?_, ?_⟩
  · intro e hl
    have hprep : (TronSync.prepareEntries toHex token es).Pairwise
        (fun a b => a.block_number ≤ b.block_number) := by
      unfold TronSync.prepareEntries
      exact (List.pairwise_map).mpr hsorted
    have hfilt : (entriesForKey (TronSync.prepareEntries toHex token es) k).Pairwise
        (fun a b => a.block_number ≤ b.block_number) :=
      List.Pairwise.sublist (List.filter_sublist _) hprep
    constructor
    · rw [batchUpsert_apply, hl]
    · intro x hx hxk
      have hxf : x ∈ entriesForKey (TronSync.prepareEntries toHex token es) k := by
        unfold entriesForKey
        exact List.mem_filter.mpr ⟨hx, decide_eq_true hxk⟩
      exact getLast_block_max hfilt hl x hxf
  · intro blockTs logs
    induction logs with
    | nil =>
        intro entries h
        rw [List.mapM_nil] at h
        cases h
        rfl
    | cons a t ih =>
        intro entries h
        rw [List.mapM_cons] at h
        cases hfa : EthereumSync.processLog blockTs token a with
        | error msg => rw [hfa] at h; exact absurd h (by simp [Bind.bind, Except.bind])
        | ok b =>
            rw [hfa] at h
            cases hmt : t.mapM (EthereumSync.processLog blockTs token) with
            | error msg =>
                rw [hmt] at h
                exact absurd h (by simp [Bind.bind, Except.bind])
            | ok bs =>
                rw [hmt] at h
                have hb : entries = b :: bs := by
                  simpa [Bind.bind, Except.bind, pure, Except.pure] using h.symm
                subst hb
                simp only [List.map_cons]
                rw [processLog_block_number blockTs token a b hfa, ih bs hmt]

/-- Witness for `tron_sorted_highest_block_wins`: a TRON window with a
block-2 remove fetched before a block-1 add; after sorting, the stored
record is that of the block-2 remove, the maximal-block event of the
key. -/
theorem tron_sorted_highest_block_wins_witness :
    Database.batchUpsertBlacklistEntries emptyDB
        (TronSync.prepareEntries (fun s => s) "USDT"
          [{ result_user := "ua", event_name := "RemovedBlackList", block_number := 2,
             transaction_id := "t2", block_timestamp := 0 },
           { result_user := "ua", event_name := "AddedBlackList", block_number := 1,
             transaction_id := "t1", block_timestamp := 0 }]) 42
        ("ua", "USDT", "TRON")
      = some { is_blacklisted := false, block_number := 2, transaction_hash := "t2",
               timestamp := 0, first_seen := 42, last_updated := 42 }
    ∧ ∀ x ∈ TronSync.prepareEntries (fun s => s) "USDT"
          [{ result_user := "ua", event_name := "RemovedBlackList", block_number := 2,
             transaction_id := "t2", block_timestamp := 0 },
           { result_user := "ua", event_name := "AddedBlackList", block_number := 1,
             transaction_id := "t1", block_timestamp := 0 }],
        entryKey x = ("ua", "USDT", "TRON") → x.block_number ≤ 2 := by
  have hpe : TronSync.prepareEntries (fun s => s) "USDT"
      [{ result_user := "ua", event_name := "RemovedBlackList", block_number := 2,
         transaction_id := "t2", block_timestamp := 0 },
       { result_user := "ua", event_name := "AddedBlackList", block_number := 1,
         transaction_id := "t1", block_timestamp := 0 }] =
      [{ address := "ua", token := "USDT", network := "TRON", is_blacklisted := true,
         block_number := 1, transaction_hash := "t1", timestamp := 0 },
       { address := "ua", token := "USDT", network := "TRON", is_blacklisted := false,
         block_number := 2, transaction_hash := "t2", timestamp := 0 }] := by
    simp [TronSync.prepareEntries, TronSync.sortEvents, List.mergeSort,
      TronSync.processEvent]
  exact (tron_sorted_highest_block_wins (fun s => s) "USDT"
    [{ result_user := "ua", event_name := "RemovedBlackList", block_number := 2,
       transaction_id := "t2", block_timestamp := 0 },
     { result_user := "ua", event_name := "AddedBlackList", block_number := 1,
       transaction_id := "t1", block_timestamp := 0 }]
    emptyDB 42 ("ua", "USDT", "TRON")).2.2.1
    { address := "ua", token := "USDT", network := "TRON", is_blacklisted := false,
      block_number := 2, transaction_hash := "t2", timestamp := 0 }
    (by rw [hpe]; decide)

/-- One page of a TronGrid events response: the `data` array and the
`meta.fingerprint` continuation token (`none` models an absent or empty
token, which is falsy in the source's checks). -/
structure TronPage where
  data : List TronEvent
  fingerprint : Option String
  deriving Repr, DecidableEq

/-- The `limit` request parameter sent by
`TronSync.fetchEventsForRange` (`limit: 100`). -/
def TronSync.FETCH_RANGE_REQUEST_LIMIT : Nat := 100

/-- The hard-coded page-size constant in the termination check of
`TronSync.fetchEventsForRange` (`data.data.length < 200`). -/
def TronSync.FETCH_RANGE_CHECK_LIMIT : Nat := 200

/-- The `while (true)` pagination loop of
`TronSync.fetchEventsForRange`, run against a provider modelled as the
list of pages it would return to the successive requests: break on an
empty page; otherwise append the page and break when the response has no
fingerprint or fewer than `FETCH_RANGE_CHECK_LIMIT` entries, else follow
the fingerprint. `none` means the loop would issue yet another request
beyond the supplied script. -/
def TronSync.fetchEventsForRangeLoop :
    List TronPage → List TronEvent → Option (List TronEvent)
  | [], _ => none
  | p :: rest, acc =>
      if p.data.isEmpty then some acc
      else
        let acc2 := acc ++ p.data
        if p.fingerprint.isNone ∨ p.data.length < TronSync.FETCH_RANGE_CHECK_LIMIT then
          some acc2
        else TronSync.fetchEventsForRangeLoop rest acc2

/-- C2 (code bug): `fetchEventsForRange` requests pages of
`limit: 100` but terminates on `data.data.length < 200`. A provider
holding 140 events thus returns a full first page of 100 with a
continuation fingerprint, yet `100 < 200` stops the loop after the first
page: the remaining 40 events are silently dropped and the second page is
never requested, even though a full page with a continuation token
should always cause another page request. -/
theorem fetchEventsForRange_drops_continuation :
    TronSync.fetchEventsForRangeLoop
        [{ data := List.replicate 100
            { result_user := "u", event_name := "AddedBlackList", block_number := 1,
              transaction_id := "t", block_timestamp := 0 }
           fingerprint := some "fp1" },
         { data := List.replicate 40
            { result_user := "u", event_name := "AddedBlackList", block_number := 2,
              transaction_id := "t", block_timestamp := 0 }
           fingerprint := none }] []
      = some (List.replicate 100
          { result_user := "u", event_name := "AddedBlackList", block_number := 1,
            transaction_id := "t", block_timestamp := 0 })
    ∧ (List.replicate 100
        { result_user := "u", event_name := "AddedBlackList", block_number := 1,
          transaction_id := "t", block_timestamp := 0 } : List TronEvent).length
        = TronSync.FETCH_RANGE_REQUEST_LIMIT
    ∧ (some "fp1").isSome = true
    ∧ TronSync.FETCH_RANGE_REQUEST_LIMIT ≠ TronSync.FETCH_RANGE_CHECK_LIMIT := by
  refine ⟨?_, by decide, rfl, by decide⟩
  decide

/-- Modelled from the spec: `Database.clearBlacklistData` is called by
both sync drivers on a forced full sync but its definition is not among
the provided sources; per the spec, a full resync means "clearing
existing records for a (network, token)", so it removes every blacklist
row of that network/token pair and touches nothing else. -/
def Database.clearBlacklistData (db : BlacklistDB) (network token : String) :
    BlacklistDB := fun k =>
  if k.2.2 = network ∧ k.2.1 = token then none else db k

/-- The start of `EthereumSync.syncToken` (before the window loop):
`fromBlock = safeMax(lastSyncedBlock + 1, startBlock)`, and under
`forceFullSync` the start is reset to `startBlock` (the deployment
block) and the token's ETHEREUM rows are cleared before any fetch.
Returns the table the pass will run against and the first block it will
fetch from. -/
def EthereumSync.syncStart (db : BlacklistDB) (lastSyncedBlock startBlock : Nat)
    (token : String) (forceFullSync : Bool) : BlacklistDB × Nat :=
  if forceFullSync then (Database.clearBlacklistData db "ETHEREUM" token, startBlock)
  else (db, max (lastSyncedBlock + 1) startBlock)

/-- The constant `365 * 24 * 60 * 60 * 1000` ms: the fixed one-year lookback of
`TronSync.syncToken`'s default `fromTimestamp`. -/
def TronSync.LOOKBACK_MS : Nat := 365 * 24 * 60 * 60 * 1000

/-- The timestamp of the first TRON transaction (January 8, 2017), the
deployment-origin start that `TronSync.syncToken` keeps only as a
commented-out alternative to the one-year lookback. -/
def TronSync.FIRST_TXN_TIMESTAMP : Nat := 1483804800000

/-- The `fromTimestamp` computation of `TronSync.syncToken`: with
`forceFullSync` the stored cursor is ignored (`lastSyncedBlock = 0`), so
the branch that maps the cursor block to a timestamp is skipped and the
window starts at `Date.now() - 365 days`; without it, a positive cursor
starts just after that block's timestamp (`lastBlockTs + 1`), falling
back to `currentTs - 30 days` when the block lookup fails. -/
def TronSync.fromTimestampOf (forceFullSync : Bool) (storedCursor nowMs currentTs : Nat)
    (lastBlockTs : Option Nat) : Nat :=
  let lastSyncedBlock := if forceFullSync then 0 else storedCursor
  if lastSyncedBlock > 0 ∧ forceFullSync = false then
    match lastBlockTs with
    | some t => t + 1
    | none => currentTs - 30 * 24 * 60 * 60 * 1000
  else nowMs - TronSync.LOOKBACK_MS

/-- The apply phase of `TronSync.syncToken` (lines after the fetch): when
the window produced entries, a forced full sync clears the token's TRON
rows immediately before the batch upsert; with no entries nothing is
written (and nothing is cleared). -/
def TronSync.applyPhase (forceFullSync : Bool) (token : String) (db : BlacklistDB)
    (entries : List BlacklistEntry) (now : Nat) : BlacklistDB :=
  if entries.isEmpty then db
  else
    Database.batchUpsertBlacklistEntries
      (if forceFullSync then Database.clearBlacklistData db "TRON" token else db)
      entries now

/-- C9 counterexample: a forced TRON full resync with a saved cursor of
123456, run at `Date.now() = 1735689600000` (2025-01-01), starts
fetching at `1704153600000` — one year back — not at the deployment
origin `TronSync.FIRST_TXN_TIMESTAMP = 1483804800000`: the TRON pass
restarts from a fixed one-year lookback, not from the deployment
origin. -/
theorem tron_full_resync_not_from_origin :
    TronSync.fromTimestampOf true 123456 1735689600000 1735689600000 (some 999)
        = 1704153600000
    ∧ TronSync.fromTimestampOf true 123456 1735689600000 1735689600000 (some 999)
        ≠ TronSync.FIRST_TXN_TIMESTAMP := by
  have h : TronSync.fromTimestampOf true 123456 1735689600000 1735689600000 (some 999)
      = 1735689600000 - TronSync.LOOKBACK_MS := by
    unfold TronSync.fromTimestampOf
    simp
  rw [h]
  unfold TronSync.LOOKBACK_MS TronSync.FIRST_TXN_TIMESTAMP
  norm_num

/-- C9 amended: blacklist rows are never deleted by event application —
single and batch upserts keep every existing key — and only the explicit
full-resync clearing removes them. A forced Ethereum full sync clears
the token's rows before the pass and restarts from the deployment start
block, ignoring the saved cursor; a forced TRON full sync ignores the
saved cursor and restarts from a fixed one-year lookback window (not the
deployment origin), and clears the token's rows immediately before the
reprocessed batch is applied. -/
theorem records_deleted_only_by_full_resync :
    (∀ (db : BlacklistDB) (e : BlacklistEntry) (now : Nat) (k : BlacklistKey) (r : BlacklistRecord),
      db k = some r → ∃ r2, Database.upsertBlacklistEntry db e now k = some r2)
    ∧ (∀ (db : BlacklistDB) (es : List BlacklistEntry) (now : Nat) (k : BlacklistKey)
        (r : BlacklistRecord),
      db k = some r → ∃ r2, Database.batchUpsertBlacklistEntries db es now k = some r2)
    ∧ (∀ (db : BlacklistDB) (cursor start : Nat) (token : String),
      EthereumSync.syncStart db cursor start token true =
        (Database.clearBlacklistData db "ETHEREUM" token, start))
    ∧ (∀ (db : BlacklistDB) (network token addr : String),
      Database.clearBlacklistData db network token (addr, token, network) = none)
    ∧ (∀ (storedCursor nowMs currentTs : Nat) (lastBlockTs : Option Nat),
      TronSync.fromTimestampOf true storedCursor nowMs currentTs lastBlockTs =
        nowMs - TronSync.LOOKBACK_MS)
    ∧ (∀ (db : BlacklistDB) (token : String) (entries : List BlacklistEntry) (now : Nat),
      entries ≠ [] →
      TronSync.applyPhase true token db entries now =
        Database.batchUpsertBlacklistEntries
          (Database.clearBlacklistData db "TRON" token) entries now) := by
  refine ⟨?_, ?_, ?_, ?_, ?_, ?_⟩
  · intro db e now k r hk
    rw [upsertBlacklistEntry_apply]
    by_cases h : k = entryKey e
    · exact ⟨_, by rw [if_pos h]⟩
    · exact ⟨r, by rw [if_neg h]; exact hk⟩
  · intro db es now k r hk
    rw [batchUpsert_apply]
    cases hl : (entriesForKey es k).getLast? with
    | none => exact ⟨r, hk⟩
    | some e => exact ⟨_, rfl⟩
  · intro db cursor start token
    rfl
  · intro db network token addr
    simp [Database.clearBlacklistData]
  · intro storedCursor nowMs currentTs lastBlockTs
    unfold TronSync.fromTimestampOf
    simp
  · intro db token entries now hne
    unfold TronSync.applyPhase
    rw [if_neg (by simpa using hne)]
    simp

/-- Witness for `records_deleted_only_by_full_resync`: upserting over an
existing row keeps the key present, instantiated at a concrete one-row
table, and a TRON apply phase with one entry clears then upserts. -/
theorem records_deleted_only_by_full_resync_witness :
    (∃ r2, Database.upsertBlacklistEntry
      (Database.upsertBlacklistEntry emptyDB
        { address := "0xcc", token := "USDT", network := "ETHEREUM",
          is_blacklisted := true, block_number := 1,
          transaction_hash := "t1", timestamp := 0 } 7)
      { address := "0xdd", token := "USDT", network := "ETHEREUM",
        is_blacklisted := false, block_number := 2,
        transaction_hash := "t2", timestamp := 0 } 8
      ("0xcc", "USDT", "ETHEREUM") = some r2)
    ∧ TronSync.applyPhase true "USDT" emptyDB
        [{ address := "ua", token := "USDT", network := "TRON",
           is_blacklisted := true, block_number := 3,
           transaction_hash := "t3", timestamp := 0 }] 9 =
      Database.batchUpsertBlacklistEntries
        (Database.clearBlacklistData emptyDB "TRON" "USDT")
        [{ address := "ua", token := "USDT", network := "TRON",
           is_blacklisted := true, block_number := 3,
           transaction_hash := "t3", timestamp := 0 }] 9 := by
  constructor
  · exact records_deleted_only_by_full_resync.1
      (Database.upsertBlacklistEntry emptyDB
        { address := "0xcc", token := "USDT", network := "ETHEREUM",
          is_blacklisted := true, block_number := 1,
          transaction_hash := "t1", timestamp := 0 } 7)
      { address := "0xdd", token := "USDT", network := "ETHEREUM",
        is_blacklisted := false, block_number := 2,
        transaction_hash := "t2", timestamp := 0 } 8
      ("0xcc", "USDT", "ETHEREUM")
      { is_blacklisted := true, block_number := 1, transaction_hash := "t1",
        timestamp := 0, first_seen := 7, last_updated := 7 }
      (by decide)
  · exact records_deleted_only_by_full_resync.2.2.2.2.2 emptyDB "USDT"
      [{ address := "ua", token := "USDT", network := "TRON",
         is_blacklisted := true, block_number := 3,
         transaction_hash := "t3", timestamp := 0 }] 9 (by simp)
